import Mathlib

/-!
Verification of the tslog logging package (github.com/thorstenrie/tslog).

This file gives a shallow embedding of the package's level-gated logger:
the severity enumeration, the `Logger` state (minimum level plus output
sink), `SetLevel`, `SetOutput`, the internal `tryLog` gate, the JSON
record formatter `jsonFormat` / `level`, and the public leveled entry
points `Trace` .. `Fatal`.  External collaborators (the filesystem via
`os.CreateTemp`, `tsfio.CheckFile`, `tsfio.OpenFile`, the clock via
`time.Now`, and the JSON serializer `encoding/json`) are modelled as
explicit oracle parameters, faithful to their documented behavior.

Machine integers: Go `int` levels are modelled as `Int`.  All arithmetic
in the source is comparison only, so no overflow modelling is needed.
-/

namespace Tslog

/-! ## Severity levels (source file with constants, `Enum for log levels`) -/

/-- Go constant `TraceLevel int = 1`. -/
def TraceLevel : Int := 1

/-- Go constant `DebugLevel int = 2`. -/
def DebugLevel : Int := 2

/-- Go constant `InfoLevel int = 3`. -/
def InfoLevel : Int := 3

/-- Go constant `WarnLevel int = 4`. -/
def WarnLevel : Int := 4

/-- Go constant `ErrorLevel int = 5`. -/
def ErrorLevel : Int := 5

/-- Go constant `FatalLevel int = 6`. -/
def FatalLevel : Int := 6

/-- Go constant `defaultMinLvl int = InfoLevel`. -/
def defaultMinLvl : Int := InfoLevel

/-- Go constant `timeLayout = "2006-01-02 15:04:05 -0700 MST"`. -/
def timeLayout : String := "2006-01-02 15:04:05 -0700 MST"

/-- Go constant `defaultPattern = "tslog"`. -/
def defaultPattern : String := "tslog"

/-- Go constant `StdoutLogger = tsfio.Filename("stdout")`. -/
def StdoutLogger : String := "stdout"

/-- Go constant `DiscardLogger = tsfio.Filename("discard")`. -/
def DiscardLogger : String := "discard"

/-- Go constant `TmpLogger = tsfio.Filename("tmp")`. -/
def TmpLogger : String := "tmp"

/-! ## Errors (package tserr, external dependency; constructors used by src) -/

/-- Errors produced by the tserr package, as used by the source:
`tserr.NotExistent(msg)`, `tserr.Op(&OpArgs{Op, Fn, Err})`,
`tserr.Check(&CheckArgs{F, Err})`.  The payloads record the arguments
the source passes; the wrapped cause of `op`/`check` is the external
error's text. -/
inductive Err where
  | notExistent (s : String)
  | op (operation fn cause : String)
  | check (f cause : String)
  deriving DecidableEq, Repr

/-! ## Sinks -/

/-- The output destination held by the embedded `log.Logger`.  `New` starts
at `os.Stdout`; `SetOutput` may switch it to `io.Discard`, a temporary
file (identified by the handle the filesystem oracle returned), or a
named file handle. -/
inductive Sink where
  | stdout
  | discard
  | tmpFile (handle : Nat)
  | file (fn : String) (handle : Nat)
  deriving DecidableEq, Repr

/-- Go struct `Logger { minLvl int; logger *log.Logger }`.  The embedded
`*log.Logger` is represented by the sink it currently writes to; its
prefix and flags are fixed (`log.New(os.Stdout, "", 0)`). -/
structure Logger where
  minLvl : Int
  sink : Sink
  deriving DecidableEq, Repr

/-- Go `func New() *Logger { return &Logger{minLvl: defaultMinLvl,
logger: log.New(os.Stdout, "", 0)} }`. -/
def New : Logger := { minLvl := defaultMinLvl, sink := Sink.stdout }

/-- `setStdout` sets logging to Stdout (`l.logger.SetOutput(os.Stdout)`). -/
def Logger.setStdout (l : Logger) : Logger := { l with sink := Sink.stdout }

/-- `noLogger` sets logging to discard (`l.logger.SetOutput(io.Discard)`). -/
def Logger.noLogger (l : Logger) : Logger := { l with sink := Sink.discard }

/-! ## SetLevel -/

/-- Go method `Logger.SetLevel(level int) error`.  Returns the updated
logger and the returned error (`none` = nil).  Mirrors the source: the
error `e` starts nil; a level below Trace sets the minimum to Trace and
a NotExistent error; a level above Fatal sets the minimum to Fatal and a
NotExistent error; otherwise the minimum is set to the level itself. -/
def Logger.SetLevel (l : Logger) (level : Int) : Logger × Option Err :=
  if level < TraceLevel then
    ({ l with minLvl := TraceLevel },
      some (Err.notExistent ("log level " ++ toString level)))
  else if level > FatalLevel then
    ({ l with minLvl := FatalLevel },
      some (Err.notExistent ("log level " ++ toString level)))
  else
    ({ l with minLvl := level }, none)

/-! ## SetOutput and its filesystem oracle -/

/-- Oracle for the external filesystem calls `SetOutput` makes:
`os.CreateTemp` (for the `tmp` keyword), `tsfio.CheckFile` (path
validation; `some e` is a non-nil error) and `tsfio.OpenFile` (open for
append; per the tsfio docs it opens the named file for append-write). -/
structure FsEnv where
  createTemp : Except String Nat
  checkFile : String → Option String
  openFile : String → Except String Nat

/-- Go method `Logger.SetOutput(fn tsfio.Filename) error`.  Mirrors the
source switch on `fn`: `DiscardLogger` → `noLogger`, nil;
`StdoutLogger` → `setStdout`, nil; `TmpLogger` → create a temp file with
pattern `fmt.Sprintf("%v_*", defaultPattern)`, on failure `setStdout`
and a `tserr.Op` error, on success point the logger at the file;
otherwise `tsfio.CheckFile(fn)` (on failure `setStdout` and a
`tserr.Check` error) then `tsfio.OpenFile(fn)` (on failure `setStdout`
and a `tserr.Op` error), on success point the logger at the file. -/
def Logger.SetOutput (env : FsEnv) (l : Logger) (fn : String) : Logger × Option Err :=
  if fn = DiscardLogger then
    (l.noLogger, none)
  else if fn = StdoutLogger then
    (l.setStdout, none)
  else if fn = TmpLogger then
    match env.createTemp with
    | Except.error err =>
        (l.setStdout, some (Err.op "create temp file" (defaultPattern ++ "_*") err))
    | Except.ok f => ({ l with sink := Sink.tmpFile f }, none)
  else
    match env.checkFile fn with
    | some err => (l.setStdout, some (Err.check fn err))
    | none =>
        match env.openFile fn with
        | Except.error e => (l.setStdout, some (Err.op "open file" fn e))
        | Except.ok f => ({ l with sink := Sink.file fn f }, none)

/-! ## JSON formatting (logger_internal.go) -/

/-- Go `func level(lvl int) (string, error)`: the string representation of
`lvl`, returning `"error"` together with a NotExistent error for a
non-existent level. -/
def level (lvl : Int) : String × Option Err :=
  if lvl = TraceLevel then ("trace", none)
  else if lvl = DebugLevel then ("debug", none)
  else if lvl = InfoLevel then ("info", none)
  else if lvl = WarnLevel then ("warn", none)
  else if lvl = ErrorLevel then ("error", none)
  else if lvl = FatalLevel then ("fatal", none)
  else ("error", some (Err.notExistent ("log level " ++ toString lvl)))

/-- Character-level escaping performed by Go `encoding/json` (with the
default HTML escaping of `json.Marshal`) when serializing a string
field: quote, backslash, `\n`, `\r`, `\t`, the HTML characters
`<` `>` `&` as `\u00XX`, remaining control characters as `\u00XX`, and
U+2028/U+2029 as `\u202X`.  All other characters are copied verbatim. -/
def goEscapeChar (c : Char) : List Char :=
  if c = '"' then ['\\', '"']
  else if c = '\\' then ['\\', '\\']
  else if c = '\n' then ['\\', 'n']
  else if c = '\r' then ['\\', 'r']
  else if c = '\t' then ['\\', 't']
  else if c = '<' then ['\\', 'u', '0', '0', '3', 'c']
  else if c = '>' then ['\\', 'u', '0', '0', '3', 'e']
  else if c = '&' then ['\\', 'u', '0', '0', '2', '6']
  else if c.toNat < 32 then
    ['\\', 'u', '0', '0', (Nat.digitChar (c.toNat / 16)), (Nat.digitChar (c.toNat % 16))]
  else if c.toNat = 0x2028 then ['\\', 'u', '2', '0', '2', '8']
  else if c.toNat = 0x2029 then ['\\', 'u', '2', '0', '2', '9']
  else [c]

/-- JSON string body of `s` under Go `encoding/json` escaping. -/
def goEscape (s : String) : String := String.mk ((s.data.map goEscapeChar).flatten)

/-- `json.Marshal(&logwrap{L: logmsg{Lvl: ls, Msg: msg, Now: now}})`:
the serialized bytes for the two source structs `logwrap` (root key
`"log"`) and `logmsg` (keys `"level"`, `"message"`, `"time"` in struct
field order).  Marshalling a struct of string fields cannot fail in Go
(invalid UTF-8 is replaced, never rejected), so this is total. -/
def jsonMarshalLogwrap (ls msg now : String) : String :=
  "\x7b\"log\":\x7b\"level\":\"" ++ goEscape ls ++ "\",\"message\":\"" ++ goEscape msg
    ++ "\",\"time\":\"" ++ goEscape now ++ "\"\x7d\x7d"

/-- Go `func jsonFormat(lvl int, msg string) ([]byte, error)`.  The
`time.Now().Format(timeLayout)` reading is passed in as `now` (clock
oracle).  Returns the byte slice (`none` = nil slice) and the error:
on a level lookup failure, `(nil, errl)`; otherwise the JSON encoding
of the wrapped record and nil (`json.Marshal` cannot fail here, see
`jsonMarshalLogwrap`). -/
def jsonFormat (lvl : Int) (msg : String) (now : String) : Option String × Option Err :=
  match level lvl with
  | (_, some errl) => (none, some errl)
  | (ls, none) => (some (jsonMarshalLogwrap ls msg now), none)

/-- Go `string(j)` for a `[]byte` that may be nil: the nil slice converts
to the empty string. -/
def byteString : Option String → String
  | none => ""
  | some s => s

/-- Go method `Logger.tryLog(lvl int, msg string) error`.  Returns the
list of lines (each including the `Println` newline) written to the
logger's current sink, and the returned error.  Mirrors the source: if
`lvl >= l.minLvl`, it formats the message and then unconditionally
calls `l.logger.Println(string(j))` — also when formatting failed, in
which case `j` is nil and an empty line is printed — and returns the
formatting error; otherwise nothing is written and nil is returned. -/
def Logger.tryLog (l : Logger) (lvl : Int) (msg : String) (now : String) :
    List String × Option Err :=
  if lvl ≥ l.minLvl then
    let r := jsonFormat lvl msg now
    ([byteString r.1 ++ "\n"], r.2)
  else
    ([], none)

/-! ## Public leveled entry points -/

/-- Go method `Logger.Trace(msg string) error`. -/
def Logger.Trace (l : Logger) (msg now : String) : List String × Option Err :=
  l.tryLog TraceLevel msg now

/-- Go method `Logger.Debug(msg string) error`. -/
def Logger.Debug (l : Logger) (msg now : String) : List String × Option Err :=
  l.tryLog DebugLevel msg now

/-- Go method `Logger.Info(msg string) error`. -/
def Logger.Info (l : Logger) (msg now : String) : List String × Option Err :=
  l.tryLog InfoLevel msg now

/-- Go method `Logger.Warn(msg string) error`. -/
def Logger.Warn (l : Logger) (msg now : String) : List String × Option Err :=
  l.tryLog WarnLevel msg now

/-- The runtime outcome of calling a method on a Go interface value:
calling `Error()` on the nil interface panics with a nil pointer
dereference. -/
inductive Panic where
  | nilDeref
  deriving DecidableEq, Repr

/-- Evaluation of `err.Error()` on an interface value: panics on nil,
otherwise yields the error text. -/
def callError : Option String → Except Panic String
  | none => Except.error Panic.nilDeref
  | some s => Except.ok s

/-- Go method `Logger.Error(err error) error`:
`return l.tryLog(ErrorLevel, err.Error())`.  The `err.Error()` call is
evaluated first; on the nil interface the call panics before `tryLog`
runs. -/
def Logger.Error (l : Logger) (err : Option String) (now : String) :
    Except Panic (List String × Option Err) :=
  (callError err).map (fun s => l.tryLog ErrorLevel s now)

/-- Go method `Logger.Fatal(err error) error`:
`return l.tryLog(FatalLevel, err.Error())`.  The `err.Error()` call is
evaluated first; on the nil interface the call panics before `tryLog`
runs. -/
def Logger.Fatal (l : Logger) (err : Option String) (now : String) :
    Except Panic (List String × Option Err) :=
  (callError err).map (fun s => l.tryLog FatalLevel s now)

/-! ## Clock model: `time.Now().Format(timeLayout)`

The Go `time` package is an external collaborator.  A wall-clock reading
is modelled by its broken-down components; `formatTime` renders it with
the layout `2006-01-02 15:04:05 -0700 MST`: zero-padded 4-digit year,
2-digit month, day, hour, minute, second, a signed `±hhmm` zone offset
and the zone abbreviation. -/

/-- A broken-down wall-clock reading, as produced by the Go time package:
calendar fields, the zone offset split into sign, hours and minutes, and
the zone abbreviation.  The time package only ever produces in-range
fields (month 1–12, and so on). -/
structure GoTime where
  year : Nat
  month : Nat
  day : Nat
  hour : Nat
  minute : Nat
  second : Nat
  offNeg : Bool
  offH : Nat
  offM : Nat
  zone : String
  deriving DecidableEq, Repr

/-- Zero-padded two-digit decimal rendering (the layout digits `01`,
`02`, `15`, `04`, `05`), as a character list: exactly two digits for
values below 100, which is every value the time package produces for
these fields. -/
def pad2 (n : Nat) : List Char :=
  if n < 100 then [Nat.digitChar (n / 10), Nat.digitChar (n % 10)]
  else (toString n).data

/-- Zero-padded four-digit decimal rendering (the layout year `2006`),
as a character list: exactly four digits for values below 10000. -/
def pad4 (n : Nat) : List Char :=
  if n < 10000 then
    [Nat.digitChar (n / 1000), Nat.digitChar (n / 100 % 10),
      Nat.digitChar (n / 10 % 10), Nat.digitChar (n % 10)]
  else (toString n).data

/-- `t.Format("2006-01-02 15:04:05 -0700 MST")`: date, clock, signed
`±hhmm` offset, zone abbreviation. -/
def formatTime (t : GoTime) : String :=
  String.mk (pad4 t.year ++ ('-' :: (pad2 t.month ++ ('-' :: (pad2 t.day ++
    (' ' :: (pad2 t.hour ++ (':' :: (pad2 t.minute ++ (':' :: (pad2 t.second ++
    (' ' :: ((if t.offNeg then '-' else '+') :: (pad2 t.offH ++ (pad2 t.offM ++
    (' ' :: t.zone.data))))))))))))))))

/-! ## Layout parser (specification side)

`parseableTime` checks that a string matches the timestamp layout
`2006-01-02 15:04:05 -0700 MST`: this is what `time.Parse` with that
layout requires of the date, clock and offset fields, with a nonempty
zone abbreviation at the end. -/

/-- Consume exactly `n` decimal digits from the front. -/
def dropDigits : Nat → List Char → Option (List Char)
  | 0, cs => some cs
  | _ + 1, [] => none
  | n + 1, c :: cs => if c.isDigit then dropDigits n cs else none

/-- Consume exactly the literal character `c` from the front. -/
def dropLit (c : Char) : List Char → Option (List Char)
  | [] => none
  | c2 :: cs => if c2 = c then some cs else none

/-- Consume a `+` or `-` offset sign from the front. -/
def dropSign : List Char → Option (List Char)
  | [] => none
  | c :: cs => if c = '+' ∨ c = '-' then some cs else none

/-- Whether `s` matches the layout `2006-01-02 15:04:05 -0700 MST`:
four digits, `-`, two digits, `-`, two digits, space, two digits, `:`,
two digits, `:`, two digits, space, sign, four digits, space, and a
nonempty zone abbreviation. -/
def parseableTime (s : String) : Bool :=
  match ((((((((((((((dropDigits 4 s.data).bind (dropLit '-')).bind
      (dropDigits 2)).bind (dropLit '-')).bind (dropDigits 2)).bind
      (dropLit ' ')).bind (dropDigits 2)).bind (dropLit ':')).bind
      (dropDigits 2)).bind (dropLit ':')).bind (dropDigits 2)).bind
      (dropLit ' ')).bind dropSign).bind (dropDigits 4)).bind (dropLit ' ') with
  | some rest => !rest.isEmpty
  | none => false

/-! ## JSON record parser (specification side)

A strict parser for the serialized record shape
`{"log":{"level":"...","message":"...","time":"..."}}`, used to state
the round-trip property.  `readStr` reads a JSON string body up to its
closing quote, undoing the basic backslash escapes. -/

/-- Consume the exact character sequence `p` from the front of `cs`. -/
def expectChars : List Char → List Char → Option (List Char)
  | [], cs => some cs
  | _ :: _, [] => none
  | p :: ps, c :: cs => if c = p then expectChars ps cs else none

/-- Undo a single-character backslash escape. -/
def unescapeChar (c : Char) : Option Char :=
  if c = '"' then some '"'
  else if c = '\\' then some '\\'
  else if c = 'n' then some '\n'
  else if c = 'r' then some '\r'
  else if c = 't' then some '\t'
  else none

/-- Worker for `readStr`: the flag records whether the previous
character was an unconsumed backslash. -/
def readStrAux : Bool → List Char → Option (String × List Char)
  | _, [] => none
  | true, e :: cs =>
    match unescapeChar e with
    | none => none
    | some u => (readStrAux false cs).map (fun p => (String.singleton u ++ p.1, p.2))
  | false, c :: cs =>
    if c = '"' then some ("", cs)
    else if c = '\\' then readStrAux true cs
    else (readStrAux false cs).map (fun p => (String.singleton c ++ p.1, p.2))

/-- Read a JSON string body up to and including its closing quote,
returning the decoded string and the remaining input. -/
def readStr (cs : List Char) : Option (String × List Char) :=
  readStrAux false cs

/-- Parse a serialized log line into its (level name, message, time)
triple.  Accepts exactly the shape
`{"log":{"level":"…","message":"…","time":"…"}}` with nothing after the
closing braces. -/
def parseLogLine (s : String) : Option (String × String × String) :=
  match expectChars ("\x7b\"log\":\x7b\"level\":\"").data s.data with
  | none => none
  | some r1 =>
    match readStr r1 with
    | none => none
    | some (lv, r2) =>
      match expectChars (",\"message\":\"").data r2 with
      | none => none
      | some r3 =>
        match readStr r3 with
        | none => none
        | some (ms, r4) =>
          match expectChars (",\"time\":\"").data r4 with
          | none => none
          | some r5 =>
            match readStr r5 with
            | none => none
            | some (tm, r6) =>
              match expectChars ("\x7d\x7d").data r6 with
              | none => none
              | some r7 => if r7.isEmpty then some (lv, ms, tm) else none

/-! ## Call sequences (for the reachable-state invariant)

One public configuration or logging call against a logger, with the
oracle inputs (filesystem outcomes, clock reading) it consumes. -/

/-- A public call against a `Logger`. -/
inductive Call where
  | setLevel (level : Int)
  | setOutput (env : FsEnv) (fn : String)
  | trace (msg now : String)
  | debug (msg now : String)
  | info (msg now : String)
  | warn (msg now : String)
  | errorCall (err : Option String) (now : String)
  | fatalCall (err : Option String) (now : String)

/-- The logger state after one call.  The leveled logging calls never
mutate the `Logger` struct (`tryLog` only reads `minLvl` and writes to
the sink), so they leave the state unchanged. -/
def applyCall (l : Logger) : Call → Logger
  | Call.setLevel level => (l.SetLevel level).1
  | Call.setOutput env fn => (Logger.SetOutput env l fn).1
  | Call.trace _ _ => l
  | Call.debug _ _ => l
  | Call.info _ _ => l
  | Call.warn _ _ => l
  | Call.errorCall _ _ => l
  | Call.fatalCall _ _ => l

/-- The logger state after a finite sequence of calls. -/
def runCalls (l : Logger) : List Call → Logger
  | [] => l
  | c :: cs => runCalls (applyCall l c) cs

/-! ## Synchronization events (for the locking contract)

Instrumented versions of `SetLevel`, `SetOutput` and `tryLog` that
record one event per Go statement touching logger state: lock
operations, `minLvl` reads and writes, sink replacement, and sink
writes.  The source of these three methods contains no synchronization
statements — the `Logger` struct holds only `minLvl` and the embedded
`*log.Logger` — so the traces below contain exactly the field accesses
the source performs. -/

/-- One observable event of a logger method execution. -/
inductive Ev where
  | lockAcquire
  | lockRelease
  | readMinLvl (v : Int)
  | writeMinLvl (v : Int)
  | setSink (s : Sink)
  | writeLine (line : String)
  deriving DecidableEq, Repr

/-- Whether an event is a lock operation. -/
def isLockEv : Ev → Bool
  | Ev.lockAcquire => true
  | Ev.lockRelease => true
  | _ => false

/-- The event trace of `SetLevel(level)`: one `minLvl` write, in every
branch. -/
def setLevelTrace (level : Int) : List Ev :=
  if level < TraceLevel then [Ev.writeMinLvl TraceLevel]
  else if level > FatalLevel then [Ev.writeMinLvl FatalLevel]
  else [Ev.writeMinLvl level]

/-- The event trace of `SetOutput(fn)`: one sink replacement, in every
branch (on the failure paths the replacement is `setStdout`). -/
def setOutputTrace (env : FsEnv) (fn : String) : List Ev :=
  if fn = DiscardLogger then [Ev.setSink Sink.discard]
  else if fn = StdoutLogger then [Ev.setSink Sink.stdout]
  else if fn = TmpLogger then
    match env.createTemp with
    | Except.error _ => [Ev.setSink Sink.stdout]
    | Except.ok f => [Ev.setSink (Sink.tmpFile f)]
  else
    match env.checkFile fn with
    | some _ => [Ev.setSink Sink.stdout]
    | none =>
      match env.openFile fn with
      | Except.error _ => [Ev.setSink Sink.stdout]
      | Except.ok f => [Ev.setSink (Sink.file fn f)]

/-- The event trace of `tryLog(lvl, msg)` run against logger state `l`:
a read of `l.minLvl`, then — when the gate passes — the `Println` write
of the formatted line to the sink. -/
def tryLogTrace (l : Logger) (lvl : Int) (msg now : String) : List Ev :=
  if lvl ≥ l.minLvl then
    let r := jsonFormat lvl msg now
    [Ev.readMinLvl l.minLvl, Ev.writeLine (byteString r.1 ++ "\n")]
  else
    [Ev.readMinLvl l.minLvl]

/-- The locking contract claimed for a method execution: its trace
acquires the logger's internal lock first and releases it last. -/
def lockedTrace (tr : List Ev) : Prop :=
  tr.head? = some Ev.lockAcquire ∧ tr.getLast? = some Ev.lockRelease

instance (tr : List Ev) : Decidable (lockedTrace tr) := by
  unfold lockedTrace
  exact instDecidableAnd

/-! ## Concrete sample values (used by witnesses) -/

/-- A concrete clock reading in the fixed layout. -/
def now0 : String := "2024-06-01 12:00:00 +0000 UTC"

/-- A filesystem oracle on which every resolution step fails. -/
def failEnv : FsEnv :=
  { createTemp := Except.error "permission denied"
    checkFile := fun _ => some "invalid file name"
    openFile := fun _ => Except.error "permission denied" }

/-- A filesystem oracle on which every resolution step succeeds. -/
def okEnv : FsEnv :=
  { createTemp := Except.ok 5
    checkFile := fun _ => none
    openFile := fun _ => Except.ok 9 }

/-! ## Helper lemmas -/

/-- `level` at `FatalLevel` yields the name `"fatal"` and no error. -/
theorem level_fatal : level FatalLevel = ("fatal", none) := rfl

/-- `jsonFormat` at `FatalLevel` always succeeds. -/
theorem jsonFormat_fatal (msg now : String) :
    jsonFormat FatalLevel msg now = (some (jsonMarshalLogwrap "fatal" msg now), none) := rfl

/-- An out-of-range level makes `level` fail with a NotExistent error. -/
theorem level_out_of_range (lv : Int) (hbad : lv < TraceLevel ∨ FatalLevel < lv) :
    level lv = ("error", some (Err.notExistent ("log level " ++ toString lv))) := by
  have hb : lv < 1 ∨ 6 < lv := by
    simpa [TraceLevel, FatalLevel] using hbad
  unfold level
  rw [if_neg (by simp only [TraceLevel]; omega), if_neg (by simp only [DebugLevel]; omega),
    if_neg (by simp only [InfoLevel]; omega), if_neg (by simp only [WarnLevel]; omega),
    if_neg (by simp only [ErrorLevel]; omega), if_neg (by simp only [FatalLevel]; omega)]

/-- `SetOutput` never touches the minimum level. -/
theorem setOutput_preserves_minLvl (env : FsEnv) (l : Logger) (fn : String) :
    (Logger.SetOutput env l fn).1.minLvl = l.minLvl := by
  unfold Logger.SetOutput Logger.noLogger Logger.setStdout
  split_ifs
  · rfl
  · rfl
  · cases env.createTemp <;> rfl
  · cases env.checkFile fn with
    | some e => rfl
    | none => cases env.openFile fn <;> rfl

/-- After any `SetLevel` call the minimum level lies in `[Trace, Fatal]`. -/
theorem setLevel_result_bounds (l : Logger) (lv : Int) :
    TraceLevel ≤ (l.SetLevel lv).1.minLvl ∧ (l.SetLevel lv).1.minLvl ≤ FatalLevel := by
  unfold Logger.SetLevel
  simp only [TraceLevel, FatalLevel]
  split_ifs <;> exact ⟨by simp <;> omega, by simp <;> omega⟩

/-! ## C1: SetLevel clamps and reports -/

/-- C1: `SetLevel(level)` with `level` in `[1,6]` succeeds and sets the
minimum level to exactly that value; `level` below 1 returns an error
and sets the minimum level to Trace(1); `level` above 6 returns an
error and sets the minimum level to Fatal(6).  The threshold mutation
happens in every case, also on the error paths. -/
theorem setLevel_clamps_and_reports (l : Logger) (lv : Int) :
    (TraceLevel ≤ lv → lv ≤ FatalLevel →
      l.SetLevel lv = ({ l with minLvl := lv }, none)) ∧
    (lv < TraceLevel →
      (l.SetLevel lv).1.minLvl = TraceLevel ∧ ((l.SetLevel lv).2).isSome = true) ∧
    (FatalLevel < lv →
      (l.SetLevel lv).1.minLvl = FatalLevel ∧ ((l.SetLevel lv).2).isSome = true) := by
  unfold Logger.SetLevel
  refine ⟨fun h1 h2 => ?_, fun h => ?_, fun h => ?_⟩
  · rw [if_neg (by omega), if_neg (by omega)]
  · rw [if_pos h]
    exact ⟨rfl, rfl⟩
  · rw [if_neg (by simp only [TraceLevel, FatalLevel] at h ⊢; omega), if_pos h]
    exact ⟨rfl, rfl⟩

/-- C1 witness: the three branches at the concrete levels 4, 0 and 7
against the fresh logger. -/
theorem setLevel_clamps_and_reports_witness :
    (New.SetLevel 4 = ({ New with minLvl := 4 }, none)) ∧
    ((New.SetLevel 0).1.minLvl = TraceLevel ∧ ((New.SetLevel 0).2).isSome = true) ∧
    ((New.SetLevel 7).1.minLvl = FatalLevel ∧ ((New.SetLevel 7).2).isSome = true) :=
  ⟨(setLevel_clamps_and_reports New 4).1 (by decide) (by decide),
    (setLevel_clamps_and_reports New 0).2.1 (by decide),
    (setLevel_clamps_and_reports New 7).2.2 (by decide)⟩

/-! ## C2: tryLog on a formatting failure -/

/-- C2 counterexample: at level 7 (≥ the default minimum 3) formatting
fails and the returned error is the formatting error, but the sink does
receive output: `Println(string(nil))` writes one empty line, so the
written lines are `["\n"]`, not `[]`. -/
theorem tryLog_format_failure_cex :
    New.tryLog 7 "x" "t" = (["\n"], some (Err.notExistent "log level 7")) ∧
    (New.tryLog 7 "x" "t").1.isEmpty = false := by
  constructor
  · decide
  · decide

/-- C2 amended: when the gate passes and the level is outside `[1,6]`
(the only way formatting can fail), `tryLog` returns the formatting
error but still writes exactly one empty line to the sink — the
`Println` call is not skipped on the error path. -/
theorem tryLog_format_failure_amended (l : Logger) (lv : Int) (msg now : String)
    (hge : l.minLvl ≤ lv) (hbad : lv < TraceLevel ∨ FatalLevel < lv) :
    l.tryLog lv msg now = (["\n"], some (Err.notExistent ("log level " ++ toString lv))) := by
  unfold Logger.tryLog
  rw [if_pos hge]
  unfold jsonFormat
  rw [level_out_of_range lv hbad]
  rfl

/-- C2 amended witness: level 7 against the fresh logger. -/
theorem tryLog_format_failure_amended_witness :
    New.tryLog 7 "boom" "now" =
      (["\n"], some (Err.notExistent ("log level " ++ toString (7 : Int)))) :=
  tryLog_format_failure_amended New 7 "boom" "now" (by decide) (by decide)

/-! ## C4: suppression below the threshold -/

/-- C4: a logging call whose level is strictly below the logger's
minimum level writes nothing to the sink and returns success (nil
error), for every message, clock reading and logger state.  All public
leveled entry points funnel into `tryLog` with their fixed level. -/
theorem tryLog_below_threshold_silent_success (l : Logger) (lv : Int) (msg now : String)
    (h : lv < l.minLvl) : l.tryLog lv msg now = ([], none) := by
  unfold Logger.tryLog
  rw [if_neg (by omega)]

/-- C4 witness: a Debug(2) call against the fresh logger (minimum
Info(3)) is suppressed without an error. -/
theorem tryLog_below_threshold_silent_success_witness :
    New.tryLog DebugLevel "suppressed" "t" = ([], none) :=
  tryLog_below_threshold_silent_success New DebugLevel "suppressed" "t" (by decide)

/-! ## C8: Fatal is a label, not a control-flow action -/

/-- C8: for every non-nil error value, `Fatal(err)` returns normally
(no panic, no process termination — the embedding is a total function
returning `Except.ok`), behaves exactly as a `tryLog` call at
`FatalLevel` with the error's text as message, never returns an error
itself, and emits the fatal-level JSON record whenever the threshold
admits level 6. -/
theorem fatal_logs_and_returns (l : Logger) (s now : String) :
    l.Fatal (some s) now = Except.ok (l.tryLog FatalLevel s now) ∧
    (l.tryLog FatalLevel s now).2 = none ∧
    (l.minLvl ≤ FatalLevel →
      (l.tryLog FatalLevel s now).1 = [jsonMarshalLogwrap "fatal" s now ++ "\n"]) ∧
    (FatalLevel < l.minLvl → (l.tryLog FatalLevel s now).1 = []) := by
  refine ⟨rfl, ?_, fun h => ?_, fun h => ?_⟩
  · unfold Logger.tryLog
    split_ifs with hc
    · rw [jsonFormat_fatal]
    · rfl
  · unfold Logger.tryLog
    rw [if_pos h, jsonFormat_fatal]
    rfl
  · unfold Logger.tryLog
    rw [if_neg (by omega)]

/-- C8 witness: a concrete non-nil error against the fresh logger
(threshold Info(3) ≤ 6, so the record is emitted). -/
theorem fatal_logs_and_returns_witness :
    New.Fatal (some "fail") now0 = Except.ok (New.tryLog FatalLevel "fail" now0) ∧
    (New.tryLog FatalLevel "fail" now0).1 =
      [jsonMarshalLogwrap "fatal" "fail" now0 ++ "\n"] :=
  ⟨(fatal_logs_and_returns New "fail" now0).1,
    (fatal_logs_and_returns New "fail" now0).2.2.1 (by decide)⟩

/-! ## C10: nil error values panic in Error and Fatal -/

/-- C10: `Error(nil)` and `Fatal(nil)` evaluate `err.Error()` on the nil
interface and panic (nil dereference) instead of returning an error;
with a non-nil error both proceed normally into `tryLog`. -/
theorem error_fatal_nil_panics (l : Logger) (now : String) :
    l.Error none now = Except.error Panic.nilDeref ∧
    l.Fatal none now = Except.error Panic.nilDeref ∧
    (∀ s : String, l.Error (some s) now = Except.ok (l.tryLog ErrorLevel s now)) ∧
    (∀ s : String, l.Fatal (some s) now = Except.ok (l.tryLog FatalLevel s now)) :=
  ⟨rfl, rfl, fun _ => rfl, fun _ => rfl⟩

/-! ## C3: SetOutput failure forces stdout -/

/-- C3: whenever `SetOutput` returns an error (temp-file creation
failure, path validation failure, or file-open failure), the logger's
sink has been set to standard output before the error is returned, so
the logger is never left without a usable sink. -/
theorem setOutput_failure_forces_stdout (env : FsEnv) (l : Logger) (fn : String)
    (h : ((Logger.SetOutput env l fn).2).isSome = true) :
    (Logger.SetOutput env l fn).1.sink = Sink.stdout := by
  unfold Logger.SetOutput at h ⊢
  split_ifs at h ⊢
  · simp at h
  · simp at h
  · cases hc : env.createTemp with
    | error e => simp [Logger.setStdout]
    | ok f => rw [hc] at h; simp at h
  · cases hcf : env.checkFile fn with
    | some e => simp [Logger.setStdout]
    | none =>
      rw [hcf] at h
      cases ho : env.openFile fn with
      | error e => simp [Logger.setStdout]
      | ok f => rw [ho] at h; simp at h

/-- C3 witness: a file target whose validation fails against a failing
filesystem oracle leaves the sink at stdout. -/
theorem setOutput_failure_forces_stdout_witness :
    (Logger.SetOutput failEnv New "some.log").1.sink = Sink.stdout :=
  setOutput_failure_forces_stdout failEnv New "some.log" (by decide)

/-! ## C5: target resolution order and semantics -/

/-- C5: `SetOutput` resolves the three reserved keywords before any
filesystem interpretation — the keyword branches hold for every
filesystem oracle, so no filesystem call is consulted for them:
`discard` sets the discard sink and succeeds, `stdout` sets standard
output and succeeds, `tmp` creates a fresh temporary file (pattern
`tslog_*`), and any other target is validated (`tsfio.CheckFile`) and
then opened for append (`tsfio.OpenFile`). -/
theorem setOutput_target_resolution (env : FsEnv) (l : Logger) (fn : String) :
    (Logger.SetOutput env l DiscardLogger = (l.noLogger, none) ∧
      l.noLogger.sink = Sink.discard) ∧
    (Logger.SetOutput env l StdoutLogger = (l.setStdout, none) ∧
      l.setStdout.sink = Sink.stdout) ∧
    ((∀ f, env.createTemp = Except.ok f →
        Logger.SetOutput env l TmpLogger = ({ l with sink := Sink.tmpFile f }, none)) ∧
      (∀ e, env.createTemp = Except.error e →
        Logger.SetOutput env l TmpLogger =
          (l.setStdout, some (Err.op "create temp file" (defaultPattern ++ "_*") e)))) ∧
    (fn ≠ DiscardLogger → fn ≠ StdoutLogger → fn ≠ TmpLogger →
      (∀ e, env.checkFile fn = some e →
        Logger.SetOutput env l fn = (l.setStdout, some (Err.check fn e))) ∧
      (∀ f, env.checkFile fn = none → env.openFile fn = Except.ok f →
        Logger.SetOutput env l fn = ({ l with sink := Sink.file fn f }, none)) ∧
      (∀ e, env.checkFile fn = none → env.openFile fn = Except.error e →
        Logger.SetOutput env l fn = (l.setStdout, some (Err.op "open file" fn e)))) := by
  refine ⟨⟨?_, rfl⟩, ⟨?_, rfl⟩, ⟨fun f hf => ?_, fun e he => ?_⟩,
    fun h1 h2 h3 => ⟨fun e he => ?_, fun f hc ho => ?_, fun e hc ho => ?_⟩⟩
  · unfold Logger.SetOutput
    rw [if_pos rfl]
  · unfold Logger.SetOutput
    rw [if_neg (by decide), if_pos rfl]
  · unfold Logger.SetOutput
    rw [if_neg (by decide), if_neg (by decide), if_pos rfl, hf]
  · unfold Logger.SetOutput
    rw [if_neg (by decide), if_neg (by decide), if_pos rfl, he]
  · unfold Logger.SetOutput
    rw [if_neg h1, if_neg h2, if_neg h3, he]
  · unfold Logger.SetOutput
    rw [if_neg h1, if_neg h2, if_neg h3, hc, ho]
  · unfold Logger.SetOutput
    rw [if_neg h1, if_neg h2, if_neg h3, hc, ho]

/-- C5 witness: the keyword and file-path branches at concrete inputs
against the succeeding filesystem oracle. -/
theorem setOutput_target_resolution_witness :
    Logger.SetOutput okEnv New DiscardLogger = (New.noLogger, none) ∧
    Logger.SetOutput okEnv New TmpLogger = ({ New with sink := Sink.tmpFile 5 }, none) ∧
    Logger.SetOutput okEnv New "app.log" = ({ New with sink := Sink.file "app.log" 9 }, none) :=
  ⟨(setOutput_target_resolution okEnv New "app.log").1.1,
    (setOutput_target_resolution okEnv New "app.log").2.2.1.1 5 rfl,
    ((setOutput_target_resolution okEnv New "app.log").2.2.2
      (by decide) (by decide) (by decide)).2.1 9 rfl rfl⟩

/-! ## C7: the minimum level of a reachable logger is in [1,6] -/

/-- Any logger whose minimum level lies in `[Trace, Fatal]` keeps it in
that range through every sequence of public calls. -/
theorem runCalls_minLvl_bounds (l : Logger) (h1 : TraceLevel ≤ l.minLvl)
    (h2 : l.minLvl ≤ FatalLevel) (cs : List Call) :
    TraceLevel ≤ (runCalls l cs).minLvl ∧ (runCalls l cs).minLvl ≤ FatalLevel := by
  induction cs generalizing l with
  | nil => exact ⟨h1, h2⟩
  | cons c cs ih =>
    have hb : TraceLevel ≤ (applyCall l c).minLvl ∧ (applyCall l c).minLvl ≤ FatalLevel := by
      cases c with
      | setLevel lv => exact setLevel_result_bounds l lv
      | setOutput env fn =>
        unfold applyCall
        rw [setOutput_preserves_minLvl]
        exact ⟨h1, h2⟩
      | trace msg now => exact ⟨h1, h2⟩
      | debug msg now => exact ⟨h1, h2⟩
      | info msg now => exact ⟨h1, h2⟩
      | warn msg now => exact ⟨h1, h2⟩
      | errorCall err now => exact ⟨h1, h2⟩
      | fatalCall err now => exact ⟨h1, h2⟩
    exact ih (applyCall l c) hb.1 hb.2

/-- C7: every logger created by `New()` (minimum level Info = 3) keeps
its minimum level inside the integer range `[1,6]` through every finite
sequence of `SetLevel`, `SetOutput` and leveled logging calls. -/
theorem new_minLvl_invariant (cs : List Call) :
    TraceLevel ≤ (runCalls New cs).minLvl ∧ (runCalls New cs).minLvl ≤ FatalLevel :=
  runCalls_minLvl_bounds New (by decide) (by decide) cs

/-! ## C9: the locking contract -/

/-- C9 counterexample: the claimed contract — each call's execution
acquires the Logger's internal lock first and releases it last — fails
already for `SetLevel(3)`: its trace is the bare unsynchronized
`minLvl` write, with no lock events.  The `Logger` struct declares no
mutex. -/
theorem locking_contract_cex : ¬ lockedTrace (setLevelTrace 3) := by decide

/-- C9 amended: none of `SetLevel`, `SetOutput` or a leveled logging
call performs any lock acquisition or release of its own: their traces
contain no lock events at all.  (Only operations delegated to the
embedded standard-library `log.Logger` — `Println`, `SetOutput` — are
serialized by that library's internal mutex; the `minLvl` accesses and
the (level, sink) pair as a whole are unprotected.) -/
theorem locking_contract_amended (lv : Int) (env : FsEnv) (fn : String)
    (l : Logger) (msg now : String) :
    (setLevelTrace lv).filter isLockEv = [] ∧
    (setOutputTrace env fn).filter isLockEv = [] ∧
    (tryLogTrace l lv msg now).filter isLockEv = [] := by
  refine ⟨?_, ?_, ?_⟩
  · unfold setLevelTrace
    split_ifs <;> rfl
  · unfold setOutputTrace
    split_ifs
    · rfl
    · rfl
    · cases env.createTemp <;> rfl
    · cases env.checkFile fn with
      | some e => rfl
      | none => cases env.openFile fn <;> rfl
  · unfold tryLogTrace
    split_ifs <;> rfl

/-! ## C6: round-trip of the serialized record -/

/-- String append concatenates the character data. -/
theorem data_append (a b : String) : (a ++ b).data = a.data ++ b.data := rfl

/-- Rebuilding a string from its character data is the identity. -/
theorem strMk_data (s : String) : String.mk s.data = s := rfl

/-- `String.mk` holds exactly the given character data. -/
theorem data_mk (cs : List Char) : (String.mk cs).data = cs := rfl

/-- `expectChars` with nothing expected consumes nothing. -/
theorem expectChars_nil (cs : List Char) : expectChars [] cs = some cs := rfl

/-- `expectChars` consumes one matching character at a time. -/
theorem expectChars_cons (c : Char) (p cs : List Char) :
    expectChars (c :: p) (c :: cs) = expectChars p cs := by
  simp [expectChars]

/-- A character the Go JSON escaper leaves alone is not a quote. -/
theorem plain_ne_quote (c : Char) (h : goEscapeChar c = [c]) : c ≠ '"' := by
  intro e
  subst e
  exact absurd h (by decide)

/-- A character the Go JSON escaper leaves alone is not a backslash. -/
theorem plain_ne_backslash (c : Char) (h : goEscapeChar c = [c]) : c ≠ '\\' := by
  intro e
  subst e
  exact absurd h (by decide)

/-- Escaping a string of untouched characters is the identity. -/
theorem flatten_plain (cs : List Char) (h : ∀ c ∈ cs, goEscapeChar c = [c]) :
    (cs.map goEscapeChar).flatten = cs := by
  induction cs with
  | nil => rfl
  | cons c cs ih =>
    simp only [List.map_cons, List.flatten_cons, h c (List.mem_cons_self c cs)]
    rw [ih (fun x hx => h x (List.mem_cons_of_mem c hx))]
    rfl

/-- `goEscape` on a string of untouched characters is the identity. -/
theorem goEscape_plain (s : String) (h : ∀ c ∈ s.data, goEscapeChar c = [c]) :
    goEscape s = s := by
  unfold goEscape
  rw [flatten_plain s.data h]

/-- `readStr` reads an unescaped string body up to its closing quote. -/
theorem readStr_plain (cs : List Char) (h : ∀ c ∈ cs, goEscapeChar c = [c]) :
    ∀ rest, readStr (cs ++ '"' :: rest) = some (String.mk cs, rest) := by
  induction cs with
  | nil =>
    intro rest
    show readStrAux false ('"' :: rest) = some (String.mk [], rest)
    simp [readStrAux]
  | cons c cs ih =>
    intro rest
    have hc := h c (List.mem_cons_self c cs)
    have hq := plain_ne_quote c hc
    have hb := plain_ne_backslash c hc
    have ih2 := ih (fun x hx => h x (List.mem_cons_of_mem c hx)) rest
    show readStrAux false (c :: (cs ++ '"' :: rest)) = some (String.mk (c :: cs), rest)
    rw [show readStrAux false (c :: (cs ++ '"' :: rest))
        = if c = '"' then some ("", cs ++ '"' :: rest)
          else if c = '\\' then readStrAux true (cs ++ '"' :: rest)
          else (readStrAux false (cs ++ '"' :: rest)).map
            (fun p => (String.singleton c ++ p.1, p.2)) from rfl]
    rw [if_neg hq, if_neg hb]
    rw [show readStrAux false (cs ++ '"' :: rest) = readStr (cs ++ '"' :: rest) from rfl, ih2]
    rfl

/-- Parsing inverts marshalling when level name, message and timestamp
consist of characters the escaper leaves alone. -/
theorem parse_marshal (ls msg now : String)
    (hls : ∀ c ∈ ls.data, goEscapeChar c = [c])
    (hmsg : ∀ c ∈ msg.data, goEscapeChar c = [c])
    (hnow : ∀ c ∈ now.data, goEscapeChar c = [c]) :
    parseLogLine (jsonMarshalLogwrap ls msg now) = some (ls, msg, now) := by
  unfold jsonMarshalLogwrap parseLogLine
  rw [goEscape_plain ls hls, goEscape_plain msg hmsg, goEscape_plain now hnow]
  simp only [data_append, List.cons_append, List.append_assoc, List.nil_append,
    expectChars_cons, expectChars_nil, readStr_plain ls.data hls,
    readStr_plain msg.data hmsg, readStr_plain now.data hnow, strMk_data,
    List.isEmpty_nil, if_true]

/-- The digit characters are left untouched by the escaper. -/
theorem digitChar_plain (d : Nat) (h : d < 10) :
    goEscapeChar (Nat.digitChar d) = [Nat.digitChar d] := by
  interval_cases d <;> decide

/-- The digit characters pass `Char.isDigit`. -/
theorem digitChar_isDigit (d : Nat) (h : d < 10) : (Nat.digitChar d).isDigit = true := by
  interval_cases d <;> decide

/-- Below 100 `pad2` is the two zero-padded digits. -/
theorem pad2_lt (n : Nat) (h : n < 100) :
    pad2 n = [Nat.digitChar (n / 10), Nat.digitChar (n % 10)] := by
  unfold pad2
  rw [if_pos h]

/-- Below 10000 `pad4` is the four zero-padded digits. -/
theorem pad4_lt (n : Nat) (h : n < 10000) :
    pad4 n = [Nat.digitChar (n / 1000), Nat.digitChar (n / 100 % 10),
      Nat.digitChar (n / 10 % 10), Nat.digitChar (n % 10)] := by
  unfold pad4
  rw [if_pos h]

/-- `dropDigits` consumes two leading digits. -/
theorem dropDigits_two (c1 c2 : Char) (cs : List Char)
    (h1 : c1.isDigit = true) (h2 : c2.isDigit = true) :
    dropDigits 2 (c1 :: c2 :: cs) = some cs := by
  show (if c1.isDigit then dropDigits 1 (c2 :: cs) else none) = some cs
  rw [h1]
  show (if c2.isDigit then dropDigits 0 cs else none) = some cs
  rw [h2]
  rfl

/-- `dropDigits` consumes four leading digits. -/
theorem dropDigits_four (c1 c2 c3 c4 : Char) (cs : List Char)
    (h1 : c1.isDigit = true) (h2 : c2.isDigit = true)
    (h3 : c3.isDigit = true) (h4 : c4.isDigit = true) :
    dropDigits 4 (c1 :: c2 :: c3 :: c4 :: cs) = some cs := by
  show (if c1.isDigit then dropDigits 3 (c2 :: c3 :: c4 :: cs) else none) = some cs
  rw [h1]
  show (if c2.isDigit then dropDigits 2 (c3 :: c4 :: cs) else none) = some cs
  rw [h2]
  exact dropDigits_two c3 c4 cs h3 h4

/-- `dropDigits 2` consumes a padded two-digit field. -/
theorem dropDigits_pad2 (n : Nat) (h : n < 100) (rest : List Char) :
    dropDigits 2 (pad2 n ++ rest) = some rest := by
  rw [pad2_lt n h]
  exact dropDigits_two _ _ rest (digitChar_isDigit _ (by omega)) (digitChar_isDigit _ (by omega))

/-- `dropDigits 4` consumes a padded four-digit field. -/
theorem dropDigits_pad4 (n : Nat) (h : n < 10000) (rest : List Char) :
    dropDigits 4 (pad4 n ++ rest) = some rest := by
  rw [pad4_lt n h]
  exact dropDigits_four _ _ _ _ rest (digitChar_isDigit _ (by omega))
    (digitChar_isDigit _ (by omega)) (digitChar_isDigit _ (by omega))
    (digitChar_isDigit _ (by omega))

/-- `dropDigits 4` consumes the two padded fields of the `±hhmm` offset. -/
theorem dropDigits_two_pads (a b : Nat) (ha : a < 100) (hb : b < 100) (rest : List Char) :
    dropDigits 4 (pad2 a ++ (pad2 b ++ rest)) = some rest := by
  rw [pad2_lt a ha, pad2_lt b hb]
  exact dropDigits_four _ _ _ _ rest (digitChar_isDigit _ (by omega))
    (digitChar_isDigit _ (by omega)) (digitChar_isDigit _ (by omega))
    (digitChar_isDigit _ (by omega))

/-- `dropLit` consumes exactly its character. -/
theorem dropLit_cons (c : Char) (rest : List Char) : dropLit c (c :: rest) = some rest := by
  simp [dropLit]

/-- `dropSign` accepts both rendered offset signs. -/
theorem dropSign_if (b : Bool) (rest : List Char) :
    dropSign ((if b then '-' else '+') :: rest) = some rest := by
  cases b <;> simp [dropSign]

/-- A formatted time matches the layout checker. -/
theorem parseable_formatTime (t : GoTime)
    (hy : t.year < 10000) (hmo : t.month < 100) (hd : t.day < 100)
    (hh : t.hour < 100) (hmi : t.minute < 100) (hs : t.second < 100)
    (hoh : t.offH < 100) (hom : t.offM < 100) (hz : t.zone ≠ "") :
    parseableTime (formatTime t) = true := by
  have hzd : t.zone.data ≠ [] := by
    intro e
    apply hz
    rw [← strMk_data t.zone, e]
  unfold parseableTime
  rw [show (formatTime t).data
      = pad4 t.year ++ ('-' :: (pad2 t.month ++ ('-' :: (pad2 t.day ++
        (' ' :: (pad2 t.hour ++ (':' :: (pad2 t.minute ++ (':' :: (pad2 t.second ++
        (' ' :: ((if t.offNeg then '-' else '+') :: (pad2 t.offH ++ (pad2 t.offM ++
        (' ' :: t.zone.data))))))))))))))) from rfl]
  simp only [Option.some_bind, dropDigits_pad4 t.year hy, dropLit_cons,
    dropDigits_pad2 t.month hmo, dropDigits_pad2 t.day hd, dropDigits_pad2 t.hour hh,
    dropDigits_pad2 t.minute hmi, dropDigits_pad2 t.second hs, dropSign_if,
    dropDigits_two_pads t.offH t.offM hoh hom]
  cases hzd2 : t.zone.data with
  | nil => exact absurd hzd2 hzd
  | cons a as => rfl

/-- Characters of an append are plain when both sides are. -/
theorem plain_append (xs ys : List Char)
    (hx : ∀ c ∈ xs, goEscapeChar c = [c]) (hy : ∀ c ∈ ys, goEscapeChar c = [c]) :
    ∀ c ∈ xs ++ ys, goEscapeChar c = [c] := by
  intro c hc
  rcases List.mem_append.mp hc with h | h
  · exact hx c h
  · exact hy c h

/-- Characters of a cons are plain when head and tail are. -/
theorem plain_cons (x : Char) (ys : List Char)
    (hx : goEscapeChar x = [x]) (hy : ∀ c ∈ ys, goEscapeChar c = [c]) :
    ∀ c ∈ x :: ys, goEscapeChar c = [c] := by
  intro c hc
  rcases List.mem_cons.mp hc with rfl | h
  · exact hx
  · exact hy c h

/-- All characters of a padded two-digit field are plain. -/
theorem pad2_plain (n : Nat) (h : n < 100) : ∀ c ∈ pad2 n, goEscapeChar c = [c] := by
  rw [pad2_lt n h]
  exact plain_cons _ _ (digitChar_plain _ (by omega))
    (plain_cons _ _ (digitChar_plain _ (by omega)) (by intro c hc; cases hc))

/-- All characters of a padded four-digit field are plain. -/
theorem pad4_plain (n : Nat) (h : n < 10000) : ∀ c ∈ pad4 n, goEscapeChar c = [c] := by
  rw [pad4_lt n h]
  exact plain_cons _ _ (digitChar_plain _ (by omega))
    (plain_cons _ _ (digitChar_plain _ (by omega))
      (plain_cons _ _ (digitChar_plain _ (by omega))
        (plain_cons _ _ (digitChar_plain _ (by omega)) (by intro c hc; cases hc))))

/-- All characters of a formatted time are plain when the zone
abbreviation's are. -/
theorem formatTime_plain (t : GoTime)
    (hy : t.year < 10000) (hmo : t.month < 100) (hd : t.day < 100)
    (hh : t.hour < 100) (hmi : t.minute < 100) (hs : t.second < 100)
    (hoh : t.offH < 100) (hom : t.offM < 100)
    (hzp : ∀ c ∈ t.zone.data, goEscapeChar c = [c]) :
    ∀ c ∈ (formatTime t).data, goEscapeChar c = [c] := by
  exact plain_append _ _ (pad4_plain _ hy) <|
    plain_cons '-' _ (by decide) <|
    plain_append _ _ (pad2_plain _ hmo) <|
    plain_cons '-' _ (by decide) <|
    plain_append _ _ (pad2_plain _ hd) <|
    plain_cons ' ' _ (by decide) <|
    plain_append _ _ (pad2_plain _ hh) <|
    plain_cons ':' _ (by decide) <|
    plain_append _ _ (pad2_plain _ hmi) <|
    plain_cons ':' _ (by decide) <|
    plain_append _ _ (pad2_plain _ hs) <|
    plain_cons ' ' _ (by decide) <|
    plain_cons (if t.offNeg then '-' else '+') _ (by cases t.offNeg <;> decide) <|
    plain_append _ _ (pad2_plain _ hoh) <|
    plain_append _ _ (pad2_plain _ hom) <|
    plain_cons ' ' _ (by decide) hzp

/-- C6: formatting a record at Info level with message
`"Hello World!"` and a wall-clock reading produces the single JSON
object `{"log":{"level":…,"message":…,"time":…}}`, with no error; the
line parses back to level name `"info"`, message `"Hello World!"` and
the formatted timestamp; and the timestamp matches the fixed layout
`2006-01-02 15:04:05 -0700 MST`.  The hypotheses state what the time
package guarantees of a wall-clock reading: in-range broken-down fields
and a nonempty zone abbreviation of escaper-untouched characters. -/
theorem jsonFormat_info_roundtrip (t : GoTime)
    (hy : t.year < 10000) (hmo : t.month < 100) (hd : t.day < 100)
    (hh : t.hour < 100) (hmi : t.minute < 100) (hs : t.second < 100)
    (hoh : t.offH < 100) (hom : t.offM < 100) (hz : t.zone ≠ "")
    (hzp : ∀ c ∈ t.zone.data, goEscapeChar c = [c]) :
    jsonFormat InfoLevel "Hello World!" (formatTime t)
      = (some (jsonMarshalLogwrap "info" "Hello World!" (formatTime t)), none) ∧
    parseLogLine (jsonMarshalLogwrap "info" "Hello World!" (formatTime t))
      = some ("info", "Hello World!", formatTime t) ∧
    parseableTime (formatTime t) = true := by
  refine ⟨rfl, ?_, parseable_formatTime t hy hmo hd hh hmi hs hoh hom hz⟩
  exact parse_marshal "info" "Hello World!" (formatTime t) (by decide) (by decide)
    (formatTime_plain t hy hmo hd hh hmi hs hoh hom hzp)

/-- A concrete wall-clock reading. -/
def t0 : GoTime :=
  { year := 2024, month := 1, day := 2, hour := 3, minute := 4, second := 5
    offNeg := false, offH := 0, offM := 0, zone := "UTC" }

/-- C6 witness: the round trip at a concrete wall-clock reading. -/
theorem jsonFormat_info_roundtrip_witness :
    parseLogLine (jsonMarshalLogwrap "info" "Hello World!" (formatTime t0))
      = some ("info", "Hello World!", formatTime t0) ∧
    parseableTime (formatTime t0) = true :=
  ⟨(jsonFormat_info_roundtrip t0 (by decide) (by decide) (by decide) (by decide)
      (by decide) (by decide) (by decide) (by decide) (by decide) (by decide)).2.1,
    (jsonFormat_info_roundtrip t0 (by decide) (by decide) (by decide) (by decide)
      (by decide) (by decide) (by decide) (by decide) (by decide) (by decide)).2.2⟩

end Tslog
